import Mathlib

/-!
Verification of the task-lifecycle client of the currency-converter CLI
(`src/api.ts`, `src/index.ts`).

The client is embedded shallowly:
* JS strings are `List Char` (for parsed text) or `String` (for opaque
  identifiers and status values);
* JS numbers that the claims exercise are exact rationals `ℚ`;
* `process.exit(code)` is modelled by the `Proc.exit code` outcome, normal
  return by `Proc.ok`;
* the remote service is an explicit environment: the HTTP answer to the
  submission, the sequence of statuses the polling endpoint yields, the
  output-metadata `Stdout` field, and the artifact body at each URL.
-/

namespace CurrencyConverter

/-- Outcome of a function that can call `process.exit`: either a normal
return value or process termination with an exit code. -/
inductive Proc (α : Type) where
  | ok (a : α)
  | exit (code : Nat)
deriving DecidableEq, Repr

/-- An HTTP call as the axios client sees it: a successful (2xx) response
carrying data, or a transport/HTTP failure carrying a message. -/
inductive HttpResult (α : Type) where
  | success (data : α)
  | failure (message : String)
deriving DecidableEq, Repr

/-- Response body of `POST /tasks`: `{TaskID: <string>}`. -/
structure SubmitResponse where
  TaskID : String
deriving DecidableEq, Repr

/-- `postTask` (api.ts:46-68): on a successful response returns
`response.data.TaskID`; on error, `handleApiError` exits with status 1. -/
def postTask (resp : HttpResult SubmitResponse) : Proc String :=
  match resp with
  | .success r => .ok r.TaskID
  | .failure _ => .exit 1

/-- `submitTask` (api.ts:76-83): calls `postTask`, logs
`Task submitted. Task ID: ${taskId}` and returns the id.  The log line is
returned alongside the id. -/
def submitTask (resp : HttpResult SubmitResponse) : Proc (String × String) :=
  match postTask resp with
  | .ok taskId => .ok (taskId, "Task submitted. Task ID: " ++ taskId)
  | .exit c => .exit c

/-- The statuses on which `waitForTaskCompletion` exits with status 1:
`['Cancelled', 'Stopped'].includes(status)` (api.ts:110). -/
def terminalFailure (s : String) : Bool :=
  s = "Cancelled" || s = "Stopped"

/-- A status at which the polling loop stops (either branch of
api.ts:110-116). -/
def isTerminal (s : String) : Bool :=
  terminalFailure s || s = "Completed"

/-- Observable events of the polling loop: a status query for a task, and a
timed sleep. -/
inductive PollEvent where
  | query (taskId : String)
  | sleep (ms : Nat)
deriving DecidableEq, Repr

/-- How one run of the polling loop ends: normal return, `process.exit`
with the error text logged just before it, or the supplied status sequence
ran out while the loop would keep polling. -/
inductive PollResult where
  | returned
  | exited (code : Nat) (errLog : String)
  | pending
deriving DecidableEq, Repr

/-- `waitForTaskCompletion` (api.ts:107-120), run against the sequence of
statuses the remote service yields to successive `fetchTaskStatus` calls.
Each iteration queries the status; `Cancelled`/`Stopped` logs
`Task is ${status}.` and exits 1; `Completed` returns; anything else sleeps
2000 ms and loops. -/
def waitForTaskCompletion (taskId : String) :
    List String → List PollEvent × PollResult
  | [] => ([], .pending)
  | status :: rest =>
    if terminalFailure status then
      ([.query taskId], .exited 1 ("Task is " ++ status ++ "."))
    else if status = "Completed" then
      ([.query taskId], .returned)
    else
      let (evs, r) := waitForTaskCompletion taskId rest
      (.query taskId :: .sleep 2000 :: evs, r)

/-- Line terminators, the characters a JavaScript regex `.` does not
match. -/
def isLineTerm (c : Char) : Bool :=
  c = '\n' || c = '\r' || c = '\u2028' || c = '\u2029'

/-- `stdout.replace(/Ux.*/, '')` (api.ts:143): delete the leftmost match of
`Ux.*`, i.e. from the first occurrence of `Ux` up to (excluding) the next
line terminator or the end of the text. -/
def replaceUx : List Char → List Char
  | [] => []
  | c :: rest =>
    if c = 'U' ∧ rest.head? = some 'x' then
      rest.tail.dropWhile (fun ch => !isLineTerm ch)
    else
      c :: replaceUx rest

/-- Whether the substring `Ux` occurs in the text. -/
def containsUx : List Char → Bool
  | [] => false
  | c :: rest => decide (c = 'U' ∧ rest.head? = some 'x') || containsUx rest

/-- Match `\d+\.\d+` at the start of `cs` (digits are `[0-9]`, `+` greedy):
returns the matched characters, or `none`. -/
def matchFloatAt (cs : List Char) : Option (List Char) :=
  let ds1 := cs.takeWhile Char.isDigit
  if ds1.isEmpty then none
  else
    match cs.drop ds1.length with
    | '.' :: rest =>
      let ds2 := rest.takeWhile Char.isDigit
      if ds2.isEmpty then none else some (ds1 ++ '.' :: ds2)
    | _ => none

/-- `cleanOutput.match(/<lit>(\d+\.\d+)/)`: scan left to right for the
first position where the literal `lit` is followed by `\d+\.\d+`, and
return the capture group (the matched number's characters). -/
def matchCapture (lit : List Char) : List Char → Option (List Char)
  | [] => none
  | c :: rest =>
    if lit.isPrefixOf (c :: rest) then
      match matchFloatAt ((c :: rest).drop lit.length) with
      | some cap => some cap
      | none => matchCapture lit rest
    else
      matchCapture lit rest

/-- The literal part of `/Uncertain conversion rate: (\d+\.\d+)/`. -/
def rateLit : List Char := "Uncertain conversion rate: ".toList

/-- The literal part of `/Converted Amount: (\d+\.\d+)/`. -/
def amountLit : List Char := "Converted Amount: ".toList

/-- Numeric value of a digit string. -/
def digitsToNat (ds : List Char) : Nat :=
  ds.foldl (fun n c => 10 * n + (c.toNat - '0'.toNat)) 0

/-- `parseFloat` on a capture of shape `\d+\.\d+`: integer part plus
fractional part, as an exact rational. -/
def parseFloat (s : List Char) : ℚ :=
  let intPart := s.takeWhile Char.isDigit
  let fracPart := s.drop (intPart.length + 1)
  (digitsToNat intPart : ℚ) + (digitsToNat fracPart : ℚ) / 10 ^ fracPart.length

/-- The structured result `{rate, convertedAmount}` (api.ts:156-159). -/
structure ConversionResult where
  rate : ℚ
  convertedAmount : ℚ
deriving DecidableEq, Repr

/-- The two pattern extractions applied to the already-cleaned text
(api.ts:144-159): if either fails, log and exit 1; otherwise return both
parsed numbers. -/
def extractCleaned (cleanOutput : List Char) : Proc ConversionResult :=
  match matchCapture rateLit cleanOutput, matchCapture amountLit cleanOutput with
  | some r, some a => .ok ⟨parseFloat r, parseFloat a⟩
  | _, _ => .exit 1

/-- `extractOutput` (api.ts:142-160): clean the sentinel line, then run the
two extractions. -/
def extractOutput (stdout : List Char) : Proc ConversionResult :=
  extractCleaned (replaceUx stdout)

/-- JavaScript truthiness of the optional `Stdout` string field:
`undefined` and the empty string are both falsy. -/
def jsTruthy : Option (List Char) → Bool
  | none => false
  | some s => !s.isEmpty

/-- `getTaskOutput` (api.ts:167-186), given the `Stdout` field of the
output-metadata response and the artifact contents at each URL.  The
boolean records whether `fetchOutputStream` (the artifact download) was
attempted: on `!response.data.Stdout` the function logs and exits 1 before
any download. -/
def getTaskOutput (stdoutField : Option (List Char))
    (fetchOutputStream : List Char → List Char) :
    Proc ConversionResult × Bool :=
  if jsTruthy stdoutField then
    (extractOutput (fetchOutputStream (stdoutField.getD [])), true)
  else
    (.exit 1, false)

/-- How `executeTask` ends: a parsed result, a `process.exit`, or an
unbounded polling loop (the status sequence ran out with no terminal). -/
inductive ExecOutcome where
  | ok (r : ConversionResult)
  | exit (code : Nat)
  | loops
deriving DecidableEq, Repr

/-- The remote service as one invocation observes it. -/
structure Env where
  submitResp : HttpResult SubmitResponse
  statuses : List String
  stdoutField : Option (List Char)
  fetchOutputStream : List Char → List Char

/-- `executeTask` (index.ts:77-81): submit, poll to completion, fetch and
extract the output.  The boolean records whether `getTaskOutput` was
reached. -/
def executeTask (env : Env) : ExecOutcome × Bool :=
  match submitTask env.submitResp with
  | .exit c => (.exit c, false)
  | .ok (taskId, _) =>
    match (waitForTaskCompletion taskId env.statuses).2 with
    | .returned =>
      match (getTaskOutput env.stdoutField env.fetchOutputStream).1 with
      | .ok r => (.ok r, true)
      | .exit c => (.exit c, true)
    | .exited c _ => (.exit c, false)
    | .pending => (.loops, false)

/-- `validateInput` (index.ts:40-66): four checks in order, each exiting 1
on violation. -/
def validateInput (sourceCurrency targetCurrency : String)
    (rateMin rateMax amount : ℚ) : Proc Unit :=
  if sourceCurrency = targetCurrency then .exit 1
  else if rateMin ≥ rateMax then .exit 1
  else if amount ≤ 0 then .exit 1
  else if rateMin ≤ 0 ∨ rateMax ≤ 0 then .exit 1
  else .ok ()

/-- The output extractor as claim C1 reads it: discard everything from the
first occurrence of `Ux` to the end of the whole text (later lines
included), then run the two extractions on the remaining prefix. -/
def specCleanUxAll : List Char → List Char
  | [] => []
  | 'U' :: 'x' :: _ => []
  | c :: rest => c :: specCleanUxAll rest

/-- The extractor that claim C1 describes, for comparison with
`extractOutput`. -/
def extractOutputSpecC1 (stdout : List Char) : Proc ConversionResult :=
  extractCleaned (specCleanUxAll stdout)

/-- Concrete stdout text separating `extractOutput` from the C1 reading:
the sentinel line comes first and the two value lines follow it. -/
def cexC1Input : List Char :=
  "Ux noise\nUncertain conversion rate: 0.85\nConverted Amount: 85.00".toList

/-- Raw text with both values in scientific notation; the `\d+\.\d+`
pattern matches the mantissas. -/
def sciInput : List Char :=
  "Uncertain conversion rate: 1.25e2\nConverted Amount: 8.5e1".toList

/-! ### Helper lemmas -/

theorem parseFloat_digits (s ds1 ds2 : List Char) (n1 n2 k : Nat) (q : ℚ)
    (h1 : s.takeWhile Char.isDigit = ds1)
    (h2 : s.drop (ds1.length + 1) = ds2)
    (h3 : digitsToNat ds1 = n1) (h4 : digitsToNat ds2 = n2)
    (h5 : ds2.length = k)
    (h6 : (n1 : ℚ) + (n2 : ℚ) / 10 ^ k = q) :
    parseFloat s = q := by
  simp only [parseFloat, h1, h2, h3, h4, h5, h6]

theorem extractOutput_eval (stdout r a : List Char)
    (h1 : matchCapture rateLit (replaceUx stdout) = some r)
    (h2 : matchCapture amountLit (replaceUx stdout) = some a) :
    extractOutput stdout = .ok ⟨parseFloat r, parseFloat a⟩ := by
  unfold extractOutput extractCleaned
  rw [h1, h2]

theorem parseFloat_085 : parseFloat "0.85".toList = 0.85 :=
  parseFloat_digits _ ('0' :: []) ('8' :: '5' :: []) 0 85 2 0.85
    (by decide) (by decide) (by decide) (by decide) (by decide) (by norm_num)

theorem parseFloat_8500 : parseFloat "85.00".toList = 85.0 :=
  parseFloat_digits _ ('8' :: '5' :: []) ('0' :: '0' :: []) 85 0 2 85.0
    (by decide) (by decide) (by decide) (by decide) (by decide) (by norm_num)

theorem parseFloat_125 : parseFloat "1.25".toList = 1.25 :=
  parseFloat_digits _ ('1' :: []) ('2' :: '5' :: []) 1 25 2 1.25
    (by decide) (by decide) (by decide) (by decide) (by decide) (by norm_num)

theorem parseFloat_85 : parseFloat "8.5".toList = 8.5 :=
  parseFloat_digits _ ('8' :: []) ('5' :: []) 8 5 1 8.5
    (by decide) (by decide) (by decide) (by decide) (by decide) (by norm_num)

theorem dropWhile_toLineTerm (mid post : List Char)
    (hmid : ∀ c ∈ mid, isLineTerm c = false) :
    (mid ++ '\n' :: post).dropWhile (fun ch => !isLineTerm ch) = '\n' :: post := by
  induction mid with
  | nil => simp [List.dropWhile_cons, isLineTerm]
  | cons c cs ih =>
    have hc : isLineTerm c = false := hmid c (by simp)
    simp only [List.cons_append, List.dropWhile_cons, hc, Bool.not_false, if_true]
    exact ih fun d hd => hmid d (by simp [hd])

theorem containsUx_cons (c : Char) (rest : List Char)
    (h : containsUx (c :: rest) = false) :
    ¬(c = 'U' ∧ rest.head? = some 'x') ∧ containsUx rest = false := by
  simpa [containsUx] using h

theorem replaceUx_split (pre mid post : List Char)
    (hpre : containsUx pre = false)
    (hmid : ∀ c ∈ mid, isLineTerm c = false) :
    replaceUx (pre ++ 'U' :: 'x' :: (mid ++ '\n' :: post)) = pre ++ '\n' :: post := by
  induction pre with
  | nil =>
    simp only [List.nil_append, replaceUx, List.head?_cons, List.tail_cons, if_pos,
      and_self]
    exact dropWhile_toLineTerm mid post hmid
  | cons c pre ih =>
    obtain ⟨h1, h2⟩ := containsUx_cons c pre hpre
    have hcond : ¬(c = 'U' ∧ (pre ++ 'U' :: 'x' :: (mid ++ '\n' :: post)).head? = some 'x') := by
      rcases pre with _ | ⟨d, pre'⟩
      · rintro ⟨_, hh⟩
        simp at hh
      · rintro ⟨hc, hh⟩
        simp only [List.cons_append, List.head?_cons, Option.some.injEq] at hh
        exact h1 ⟨hc, by simp [hh]⟩
    simp only [List.cons_append, replaceUx, List.append_eq]
    rw [if_neg hcond, ih h2]

theorem poll_nonterminal (taskId : String) (pre rest : List String)
    (hpre : ∀ t ∈ pre, isTerminal t = false) :
    waitForTaskCompletion taskId (pre ++ rest) =
      ((List.replicate pre.length [PollEvent.query taskId, PollEvent.sleep 2000]).flatten
          ++ (waitForTaskCompletion taskId rest).1,
        (waitForTaskCompletion taskId rest).2) := by
  induction pre with
  | nil => simp
  | cons t pre ih =>
    have ht : isTerminal t = false := hpre t (by simp)
    have h1 : terminalFailure t = false := by
      simp only [isTerminal, Bool.or_eq_false_iff] at ht
      exact ht.1
    have h2 : ¬ t = "Completed" := by
      simp only [isTerminal, Bool.or_eq_false_iff, decide_eq_false_iff_not] at ht
      exact ht.2
    simp only [List.cons_append, List.append_eq, waitForTaskCompletion, h1,
      Bool.false_eq_true, if_false, h2, ih fun s hs => hpre s (by simp [hs]),
      List.length_cons, List.replicate_succ, List.flatten_cons, List.append_assoc,
      List.nil_append]

theorem poll_completes (taskId : String) (pre : List String)
    (hpre : ∀ t ∈ pre, isTerminal t = false) :
    waitForTaskCompletion taskId (pre ++ ["Completed"]) =
      ((List.replicate pre.length [PollEvent.query taskId, PollEvent.sleep 2000]).flatten
          ++ [PollEvent.query taskId],
        .returned) := by
  rw [poll_nonterminal taskId pre ["Completed"] hpre]
  have h : waitForTaskCompletion taskId ["Completed"] =
      ([PollEvent.query taskId], .returned) := by
    simp [waitForTaskCompletion, terminalFailure]
  rw [h]

theorem poll_abandons (taskId : String) (pre : List String) (s : String)
    (hpre : ∀ t ∈ pre, isTerminal t = false)
    (hs : terminalFailure s = true) :
    waitForTaskCompletion taskId (pre ++ [s]) =
      ((List.replicate pre.length [PollEvent.query taskId, PollEvent.sleep 2000]).flatten
          ++ [PollEvent.query taskId],
        .exited 1 ("Task is " ++ s ++ ".")) := by
  rw [poll_nonterminal taskId pre [s] hpre]
  have h : waitForTaskCompletion taskId [s] =
      ([PollEvent.query taskId], .exited 1 ("Task is " ++ s ++ ".")) := by
    simp [waitForTaskCompletion, hs]
  rw [h]

theorem matchFloatAt_shape (cs cap : List Char) (h : matchFloatAt cs = some cap) :
    ∃ ds1 ds2, cap = ds1 ++ '.' :: ds2 ∧ ds1 ≠ [] ∧ ds2 ≠ [] ∧
      (∀ c ∈ ds1, c.isDigit = true) ∧ (∀ c ∈ ds2, c.isDigit = true) := by
  simp only [matchFloatAt] at h
  split at h
  · exact absurd h (by simp)
  · rename_i hne1
    split at h
    · rename_i rest heq
      split at h
      · exact absurd h (by simp)
      · rename_i hne2
        refine ⟨cs.takeWhile Char.isDigit, rest.takeWhile Char.isDigit, ?_, ?_, ?_, ?_, ?_⟩
        · simpa using h.symm
        · simpa [List.isEmpty_iff] using hne1
        · simpa [List.isEmpty_iff] using hne2
        · exact fun c hc => List.mem_takeWhile_imp hc
        · exact fun c hc => List.mem_takeWhile_imp hc
    · exact absurd h (by simp)

theorem matchCapture_shape (lit cs found : List Char)
    (h : matchCapture lit cs = some found) :
    ∃ ds1 ds2, found = ds1 ++ '.' :: ds2 ∧ ds1 ≠ [] ∧ ds2 ≠ [] ∧
      (∀ c ∈ ds1, c.isDigit = true) ∧ (∀ c ∈ ds2, c.isDigit = true) := by
  induction cs with
  | nil => simp [matchCapture] at h
  | cons c rest ih =>
    rw [matchCapture] at h
    split at h
    · split at h
      · rename_i cap' heq
        obtain rfl : cap' = found := by simpa using h
        exact matchFloatAt_shape _ cap' heq
      · exact ih h
    · exact ih h

/-! ### Claim theorems -/

/-- C1, counterexample: the claim reads `stdout.replace(/Ux.*/, '')` as
discarding everything from the first `Ux` to the end of the whole text.  On
`cexC1Input` (sentinel line first, both value lines after it) that reading
yields a fatal exit, while `extractOutput` keeps the later lines and
succeeds — so the claim as stated is false. -/
theorem extractOutput_discardsRestOfText_cex :
    extractOutputSpecC1 cexC1Input = .exit 1 ∧
    extractOutput cexC1Input = .ok ⟨0.85, 85.0⟩ := by
  refine ⟨by decide, ?_⟩
  rw [extractOutput_eval _ "0.85".toList "85.00".toList (by decide) (by decide),
    parseFloat_085, parseFloat_8500]

/-- C1, amended: the extractor first discards the text from the first
occurrence of the sentinel marker `Ux` up to the end of that line only
(line terminators and the following lines survive, because the JavaScript
`.` does not match line terminators), and then applies the two pattern
extractions to what remains. -/
theorem extractOutput_discardsSentinelLineOnly (pre mid post : List Char)
    (hpre : containsUx pre = false)
    (hmid : ∀ c ∈ mid, isLineTerm c = false) :
    extractOutput (pre ++ 'U' :: 'x' :: (mid ++ '\n' :: post)) =
      extractCleaned (pre ++ '\n' :: post) := by
  unfold extractOutput
  rw [replaceUx_split pre mid post hpre hmid]

/-- C1, witness for the amended theorem at a concrete text. -/
theorem extractOutput_discardsSentinelLineOnly_witness :
    extractOutput ("abc".toList ++ 'U' :: 'x' :: (" noise".toList ++ '\n' ::
        "Uncertain conversion rate: 0.85\nConverted Amount: 85.00".toList)) =
      extractCleaned ("abc".toList ++ '\n' ::
        "Uncertain conversion rate: 0.85\nConverted Amount: 85.00".toList) :=
  extractOutput_discardsSentinelLineOnly "abc".toList " noise".toList
    "Uncertain conversion rate: 0.85\nConverted Amount: 85.00".toList
    (by decide) (by decide)

/-- C2: for a status sequence of non-terminal values followed by
`Completed`, the poller returns normally after exactly one query per status
value, in order, with one 2000 ms sleep between consecutive queries. -/
theorem waitForTaskCompletion_completedSequence (taskId : String) (pre : List String)
    (hpre : ∀ t ∈ pre, isTerminal t = false) :
    waitForTaskCompletion taskId (pre ++ ["Completed"]) =
      ((List.replicate pre.length [PollEvent.query taskId, PollEvent.sleep 2000]).flatten
          ++ [PollEvent.query taskId],
        .returned) :=
  poll_completes taskId pre hpre

/-- C2, witness: two non-terminal statuses then `Completed`. -/
theorem waitForTaskCompletion_completedSequence_witness :
    waitForTaskCompletion "12345" (["Queued", "InProgress"] ++ ["Completed"]) =
      ((List.replicate (["Queued", "InProgress"] : List String).length
          [PollEvent.query "12345", PollEvent.sleep 2000]).flatten
          ++ [PollEvent.query "12345"],
        .returned) :=
  waitForTaskCompletion_completedSequence "12345" ["Queued", "InProgress"] (by decide)

/-- C3: when the first terminal status is `Cancelled` or `Stopped`, the
poller queries once per observed status, logs `Task is <status>.` and exits
with status 1 at the first terminal observation, and `executeTask` ends with
exit status 1 with `getTaskOutput` never reached (the boolean is `false`). -/
theorem executeTask_abandonedOnCancelledOrStopped (env : Env) (resp : SubmitResponse)
    (pre : List String) (s : String)
    (hsub : env.submitResp = .success resp)
    (hst : env.statuses = pre ++ [s])
    (hpre : ∀ t ∈ pre, isTerminal t = false)
    (hs : s = "Cancelled" ∨ s = "Stopped") :
    executeTask env = (.exit 1, false) ∧
    waitForTaskCompletion resp.TaskID env.statuses =
      ((List.replicate pre.length [PollEvent.query resp.TaskID, PollEvent.sleep 2000]).flatten
          ++ [PollEvent.query resp.TaskID],
        .exited 1 ("Task is " ++ s ++ ".")) := by
  have hterm : terminalFailure s = true := by
    rcases hs with h | h <;> simp [terminalFailure, h]
  have hpoll := poll_abandons resp.TaskID pre s hpre hterm
  refine ⟨?_, by rw [hst]; exact hpoll⟩
  unfold executeTask
  rw [hsub, hst]
  simp only [submitTask, postTask, hpoll]

/-- C3, witness: `InProgress` then `Cancelled`. -/
theorem executeTask_abandonedOnCancelledOrStopped_witness :
    executeTask ⟨.success ⟨"12345"⟩, ["InProgress"] ++ ["Cancelled"], some "u".toList,
        fun _ => []⟩ = (.exit 1, false) ∧
    waitForTaskCompletion "12345" (["InProgress"] ++ ["Cancelled"]) =
      ((List.replicate (["InProgress"] : List String).length
          [PollEvent.query "12345", PollEvent.sleep 2000]).flatten
          ++ [PollEvent.query "12345"],
        .exited 1 ("Task is " ++ "Cancelled" ++ ".")) :=
  executeTask_abandonedOnCancelledOrStopped
    ⟨.success ⟨"12345"⟩, ["InProgress"] ++ ["Cancelled"], some "u".toList, fun _ => []⟩
    ⟨"12345"⟩ ["InProgress"] "Cancelled" rfl rfl (by decide) (Or.inl rfl)

/-- C4: on the raw text `"Uncertain conversion rate: 0.85\nConverted
Amount: 85.00"` the extractor returns exactly rate `0.85` and converted
amount `85.0`. -/
theorem extractOutput_roundTrip :
    extractOutput "Uncertain conversion rate: 0.85\nConverted Amount: 85.00".toList =
      .ok ⟨0.85, 85.0⟩ := by
  rw [extractOutput_eval _ "0.85".toList "85.00".toList (by decide) (by decide),
    parseFloat_085, parseFloat_8500]

/-- C5: if either pattern fails to match on the cleaned text the extractor
exits with status 1, and in general the extractor either exits with status
1 or returns both parsed numbers — never a partial result. -/
theorem extractOutput_failFast :
    (∀ stdout : List Char,
        matchCapture rateLit (replaceUx stdout) = none ∨
          matchCapture amountLit (replaceUx stdout) = none →
        extractOutput stdout = .exit 1) ∧
    (∀ stdout : List Char,
        extractOutput stdout = .exit 1 ∨
        ∃ r a, matchCapture rateLit (replaceUx stdout) = some r ∧
          matchCapture amountLit (replaceUx stdout) = some a ∧
          extractOutput stdout = .ok ⟨parseFloat r, parseFloat a⟩) := by
  constructor
  · intro stdout h
    unfold extractOutput extractCleaned
    rcases hr : matchCapture rateLit (replaceUx stdout) with _ | r <;>
      rcases ha : matchCapture amountLit (replaceUx stdout) with _ | a <;>
      simp_all
  · intro stdout
    rcases hr : matchCapture rateLit (replaceUx stdout) with _ | r <;>
      rcases ha : matchCapture amountLit (replaceUx stdout) with _ | a
    · exact Or.inl (by unfold extractOutput extractCleaned; rw [hr, ha])
    · exact Or.inl (by unfold extractOutput extractCleaned; rw [hr, ha])
    · exact Or.inl (by unfold extractOutput extractCleaned; rw [hr, ha])
    · exact Or.inr ⟨r, a, rfl, rfl, by unfold extractOutput extractCleaned; rw [hr, ha]⟩

/-- C5, witness: a text matching neither pattern exits with status 1. -/
theorem extractOutput_failFast_witness :
    extractOutput "hello world".toList = .exit 1 :=
  extractOutput_failFast.1 "hello world".toList (Or.inl (by decide))

/-- C6: when the output metadata has no `Stdout` field, `getTaskOutput`
exits with status 1 and never attempts the artifact download. -/
theorem getTaskOutput_missingStdout_fatal (fetchOutputStream : List Char → List Char) :
    getTaskOutput none fetchOutputStream = (.exit 1, false) := rfl

/-- C7: a submission answered with HTTP 200 and a `TaskID` makes the
submitter return exactly that id, with the confirmation log line containing
the id. -/
theorem submitTask_returnsTaskId (taskId : String) :
    submitTask (.success ⟨taskId⟩) =
      .ok (taskId, "Task submitted. Task ID: " ++ taskId) := rfl

/-- C8: `validateInput` returns normally exactly when the source and target
currencies differ, `0 < rateMin < rateMax` and `0 < amount`, and exits with
status 1 otherwise; together with the seven concrete cases of the claim. -/
theorem validateInput_spec :
    (∀ (sourceCurrency targetCurrency : String) (rateMin rateMax amount : ℚ),
        validateInput sourceCurrency targetCurrency rateMin rateMax amount =
          if sourceCurrency ≠ targetCurrency ∧ 0 < rateMin ∧ rateMin < rateMax ∧ 0 < amount
          then .ok () else .exit 1) ∧
    validateInput "USD" "USD" 1 2 100 = .exit 1 ∧
    validateInput "USD" "EUR" 2 1 100 = .exit 1 ∧
    validateInput "USD" "EUR" 1 2 (-100) = .exit 1 ∧
    validateInput "USD" "EUR" 1 2 0 = .exit 1 ∧
    validateInput "USD" "EUR" 0 2 100 = .exit 1 ∧
    validateInput "USD" "EUR" 1 (-2) 100 = .exit 1 ∧
    validateInput "USD" "EUR" 1 2 100 = .ok () := by
  refine ⟨?_, by decide, by decide, by decide, by decide, by decide, by decide, by decide⟩
  intro sc tc mn mx a
  by_cases hc : sc ≠ tc ∧ 0 < mn ∧ mn < mx ∧ 0 < a
  · obtain ⟨h1, h2, h3, h4⟩ := hc
    rw [if_pos ⟨h1, h2, h3, h4⟩]
    unfold validateInput
    rw [if_neg h1, if_neg (by linarith : ¬ mn ≥ mx), if_neg (by linarith : ¬ a ≤ 0),
      if_neg (by rintro (h | h) <;> linarith)]
  · rw [if_neg hc]
    unfold validateInput
    split_ifs with g1 g2 g3 g4
    · rfl
    · rfl
    · rfl
    · rfl
    · push_neg at g4
      exact absurd ⟨g1, g4.1, lt_of_not_ge g2, lt_of_not_le g3⟩ hc

/-- C9: a `Stdout` field holding the empty string is falsy, so
`getTaskOutput` behaves exactly as with a missing field — fatal exit with
status 1 before any download. -/
theorem getTaskOutput_emptyStdout_fatal (fetchOutputStream : List Char → List Char) :
    getTaskOutput (some "".toList) fetchOutputStream = (.exit 1, false) ∧
    getTaskOutput (some "".toList) fetchOutputStream =
      getTaskOutput none fetchOutputStream :=
  ⟨rfl, rfl⟩

/-- C10, counterexample: the claim says a value in scientific notation
makes the pattern fail and the extractor exit fatally, but on `sciInput`
(both values in scientific notation with fractional mantissas) the
`\d+\.\d+` patterns match the mantissas and the extractor succeeds. -/
theorem extractPatterns_scientific_cex :
    extractOutput sciInput = .ok ⟨1.25, 8.5⟩ ∧ extractOutput sciInput ≠ .exit 1 := by
  have h : extractOutput sciInput = .ok ⟨1.25, 8.5⟩ := by
    rw [extractOutput_eval _ "1.25".toList "8.5".toList (by decide) (by decide),
      parseFloat_125, parseFloat_85]
  exact ⟨h, by rw [h]; simp⟩

/-- C10, amended: every successful capture has the shape digits, a dot,
then digits; a value without fractional part, a negative value, or
scientific notation without a fractional mantissa makes the extractor exit
with status 1, while scientific notation with a `\d+\.\d+` mantissa is
matched at the mantissa alone (the exponent is ignored) and extraction
succeeds with the mantissa values. -/
theorem extractPatterns_decimalShape :
    (∀ lit cs found : List Char, matchCapture lit cs = some found →
        ∃ ds1 ds2, found = ds1 ++ '.' :: ds2 ∧ ds1 ≠ [] ∧ ds2 ≠ [] ∧
          (∀ c ∈ ds1, c.isDigit = true) ∧ (∀ c ∈ ds2, c.isDigit = true)) ∧
    extractOutput "Uncertain conversion rate: 0.85\nConverted Amount: 85".toList =
      .exit 1 ∧
    extractOutput "Uncertain conversion rate: 0.85\nConverted Amount: -85.5".toList =
      .exit 1 ∧
    extractOutput "Uncertain conversion rate: 0.85\nConverted Amount: 85e0".toList =
      .exit 1 ∧
    extractOutput sciInput = .ok ⟨1.25, 8.5⟩ := by
  refine ⟨matchCapture_shape, by decide, by decide, by decide, ?_⟩
  rw [extractOutput_eval _ "1.25".toList "8.5".toList (by decide) (by decide),
    parseFloat_125, parseFloat_85]

/-- C10, witness: the capture `8.5` from a scientific-notation value has
the digits-dot-digits shape. -/
theorem extractPatterns_decimalShape_witness :
    ∃ ds1 ds2, "8.5".toList = ds1 ++ '.' :: ds2 ∧ ds1 ≠ [] ∧ ds2 ≠ [] ∧
      (∀ c ∈ ds1, c.isDigit = true) ∧ (∀ c ∈ ds2, c.isDigit = true) :=
  extractPatterns_decimalShape.1 amountLit "Converted Amount: 8.5e1".toList
    "8.5".toList (by decide)

end CurrencyConverter
